import Mathlib

/-!
Verification of the in-memory user directory of this repository
(internal/services/user_service.go) against its specification.

Two embeddings are developed:

* a value-level model (`Store`, `createUser`, `updateUser`, ...) in which the
  Go map `map[string]*User` is an association list of records, and the
  pointer-through-the-map mutation of `UpdateUser` is rendered as re-inserting
  the mutated record under its key; and

* a pointer-level model (namespace `Ptr`) with an explicit heap, which makes
  the aliasing structure of the Go code visible: records live in heap cells,
  the map stores addresses, and every operation that hands a record to the
  caller allocates a fresh cell for the copy (`userCopy := *user`).  This
  model is what the copy-isolation property is stated against.

Time is a parameter: `time.Now()` becomes an explicit `now : Int` argument,
and `CreatedAt` an `Int` timestamp (seconds; the unit is irrelevant to every
property proved here).
-/

/-- A user record, from `type User struct` in user_service.go.
`CreatedAt` is modelled as an integer timestamp. -/
structure User where
  id : String
  email : String
  name : String
  role : String
  created_at : Int
deriving DecidableEq, Repr

/-- The error values of user_service.go: the four sentinel errors declared at
the top of the file plus the ad hoc `errors.New("name is required")` that
`CreateUser` returns for an empty name. -/
inductive UserError where
  | userNotFound
  | emailAlreadyExists
  | invalidUserID
  | invalidEmail
  | nameRequired
deriving DecidableEq, Repr

/-- Lookup in an association list, modelling Go map access `m[k]`. -/
def lookupA {α : Type} : List (String × α) → String → Option α
  | [], _ => none
  | (k, v) :: rest, key => if k = key then some v else lookupA rest key

/-- Insertion into an association list, modelling Go map assignment
`m[k] = v`: replace the entry if the key is present, append otherwise. -/
def insertA {α : Type} : List (String × α) → String → α → List (String × α)
  | [], key, v => [(key, v)]
  | (k, w) :: rest, key, v =>
      if k = key then (key, v) :: rest else (k, w) :: insertA rest key v

/-- Removal from an association list, modelling Go `delete(m, k)`. -/
def eraseA {α : Type} (m : List (String × α)) (key : String) :
    List (String × α) :=
  m.filter (fun p => p.1 != key)

/-- The user store: contents of the `users map[string]*User` field of
`userService`, with each pointer replaced by the record it points to. -/
abbrev Store := List (String × User)

/-- Zero-padding to width 3, modelling the `%03d` verb of
`fmt.Sprintf("usr_%03d", ...)`. -/
def pad3 (n : Nat) : String :=
  let s := toString n
  if s.length ≥ 3 then s
  else String.mk (List.replicate (3 - s.length) '0') ++ s

/-- ID generation of `CreateUser`: `fmt.Sprintf("usr_%03d", len(s.users)+1)`
applied to a map size. -/
def genID (n : Nat) : String := "usr_" ++ pad3 n

/-- The seeded store built by `NewUserService`: two test records, with
creation times 24h and 48h before `now`. -/
def newUserService (now : Int) : Store :=
  [("usr_001",
    { id := "usr_001", email := "john.doe@example.com", name := "John Doe",
      role := "admin", created_at := now - 86400 }),
   ("usr_002",
    { id := "usr_002", email := "jane.smith@example.com", name := "Jane Smith",
      role := "user", created_at := now - 172800 })]

/-- `GetUserByID`: reject the empty id, then look the record up and return a
copy.  The function reads the store and cannot change it. -/
def getUserByID (s : Store) (id : String) : Except UserError User :=
  if id = "" then .error .invalidUserID
  else
    match lookupA s id with
    | some user => .ok user
    | none => .error .userNotFound

/-- `GetAllUsers`: a snapshot of copies of all live records. -/
def getAllUsers (s : Store) : List User := s.map (fun p => p.2)

/-- `CreateUser`: validate email and name non-empty, scan all live records
for an email collision, then build the record with a generated id, the
default role `"user"` and `CreatedAt = now`, and insert it.  The store is
returned alongside the result (unchanged on every error path, exactly as in
the Go code, which returns before touching the map). -/
def createUser (s : Store) (now : Int) (email name : String) :
    Except UserError User × Store :=
  if email = "" then (.error .invalidEmail, s)
  else if name = "" then (.error .nameRequired, s)
  else if s.any (fun p => p.2.email == email) then
    (.error .emailAlreadyExists, s)
  else
    let id := genID (s.length + 1)
    let user : User :=
      { id := id, email := email, name := name, role := "user",
        created_at := now }
    (.ok user, insertA s id user)

/-- A Go `interface{}` value as it can appear in the `updates` map of
`UpdateUser`: a string, some non-string value, or nil. -/
inductive GoValue where
  | str (s : String)
  | num (n : Int)
  | null
deriving DecidableEq, Repr

/-- The sparse update map `map[string]interface{}` of `UpdateUser`. -/
abbrev Updates := List (String × GoValue)

/-- Whether a `GoValue` is a string, i.e. whether the type assertion
`.(string)` on it succeeds. -/
def isStr : GoValue → Bool
  | .str _ => true
  | _ => false

/-- The name step of `UpdateUser`:
`if name, ok := updates["name"].(string); ok && name != "" { user.Name = name }`.
A missing key, a non-string value, or the empty string leave the record
as it is. -/
def applyName (u : User) (updates : Updates) : User :=
  match lookupA updates "name" with
  | some (.str n) => if n = "" then u else { u with name := n }
  | _ => u

/-- The role step of `UpdateUser`:
`if role, ok := updates["role"].(string); ok && role != "" { user.Role = role }`. -/
def applyRole (u : User) (updates : Updates) : User :=
  match lookupA updates "role" with
  | some (.str r) => if r = "" then u else { u with role := r }
  | _ => u

/-- The uniqueness scan of `UpdateUser`: some record other than the one with
key `id` holds `email`. -/
def emailConflict (s : Store) (id email : String) : Bool :=
  s.any (fun p => (p.1 != id) && (p.2.email == email))

/-- `UpdateUser`: reject the empty id, look the record up, then apply the
name, email and role steps in the order of the Go code.  The Go code mutates
the record in place through the map pointer, so the name change is already
committed to the store when the email uniqueness scan fails: the model
re-inserts the partially updated record on that error path. -/
def updateUser (s : Store) (id : String) (updates : Updates) :
    Except UserError User × Store :=
  if id = "" then (.error .invalidUserID, s)
  else
    match lookupA s id with
    | none => (.error .userNotFound, s)
    | some user0 =>
      let user1 := applyName user0 updates
      let s1 := insertA s id user1
      match lookupA updates "email" with
      | some (.str e) =>
        if e = "" then
          let user2 := applyRole user1 updates
          (.ok user2, insertA s1 id user2)
        else if emailConflict s1 id e then
          (.error .emailAlreadyExists, s1)
        else
          let user2 := applyRole { user1 with email := e } updates
          (.ok user2, insertA s1 id user2)
      | _ =>
        let user2 := applyRole user1 updates
        (.ok user2, insertA s1 id user2)

/-- `DeleteUser`: reject the empty id, fail on an unknown id, otherwise
remove the record. -/
def deleteUser (s : Store) (id : String) : Except UserError Unit × Store :=
  if id = "" then (.error .invalidUserID, s)
  else
    match lookupA s id with
    | none => (.error .userNotFound, s)
    | some _ => (.ok (), eraseA s id)

deriving instance DecidableEq for Except

/-- The email-uniqueness invariant of the spec: no two live records share an
email. -/
def EmailsUnique (s : Store) : Prop :=
  List.Pairwise (fun p q => p.2.email ≠ q.2.email) s

theorem lookupA_mem {α : Type} {m : List (String × α)} {k : String} {v : α}
    (h : lookupA m k = some v) : (k, v) ∈ m := by
  induction m with
  | nil => simp [lookupA] at h
  | cons p rest ih =>
    rw [lookupA] at h
    by_cases hk : p.1 = k
    · rw [show p = (p.1, p.2) from rfl] at h
      simp only [hk, if_pos rfl] at h
      cases h
      simp [← hk]
    · rw [show p = (p.1, p.2) from rfl, if_neg hk] at h
      exact List.mem_cons_of_mem _ (ih h)

theorem mem_insertA {α : Type} {m : List (String × α)} {k : String} {v : α}
    {p : String × α} (h : p ∈ insertA m k v) : p ∈ m ∨ p = (k, v) := by
  induction m with
  | nil => simp [insertA] at h; simp [h]
  | cons q rest ih =>
    rw [show q = (q.1, q.2) from rfl, insertA] at h
    by_cases hk : q.1 = k
    · rw [if_pos hk] at h
      rcases List.mem_cons.mp h with h | h
      · exact Or.inr h
      · exact Or.inl (List.mem_cons_of_mem _ h)
    · rw [if_neg hk] at h
      rcases List.mem_cons.mp h with h | h
      · exact Or.inl (by simp [h])
      · rcases ih h with h | h
        · exact Or.inl (List.mem_cons_of_mem _ h)
        · exact Or.inr h

theorem insertA_self {α : Type} {m : List (String × α)} {k : String} {v : α}
    (h : lookupA m k = some v) : insertA m k v = m := by
  induction m with
  | nil => simp [lookupA] at h
  | cons p rest ih =>
    rw [show p = (p.1, p.2) from rfl, lookupA] at h
    rw [show p = (p.1, p.2) from rfl, insertA]
    by_cases hk : p.1 = k
    · simp only [hk, if_pos rfl] at h ⊢
      cases h
      rfl
    · rw [if_neg hk] at h ⊢
      rw [ih h]

theorem lookupA_insertA_self {α : Type} (m : List (String × α)) (k : String)
    (v : α) : lookupA (insertA m k v) k = some v := by
  induction m with
  | nil => simp [insertA, lookupA]
  | cons p rest ih =>
    rw [show p = (p.1, p.2) from rfl, insertA]
    by_cases hk : p.1 = k
    · rw [if_pos hk, lookupA, if_pos rfl]
    · rw [if_neg hk, lookupA, if_neg hk]
      exact ih

theorem genID_ne_empty (n : Nat) : genID n ≠ "" := by
  intro h
  have hlen := congrArg String.length h
  rw [genID, String.length_append] at hlen
  have h4 : ("usr_" : String).length = 4 := rfl
  have h0 : ("" : String).length = 0 := rfl
  rw [h4, h0] at hlen
  omega

/-- Inserting a record whose email clashes with no live record preserves the
email-uniqueness invariant. -/
theorem emailsUnique_insertA {t : Store} {id : String} {u : User}
    (huniq : EmailsUnique t) (hfresh : ∀ p ∈ t, p.2.email ≠ u.email) :
    EmailsUnique (insertA t id u) := by
  induction t with
  | nil => simp [insertA, EmailsUnique]
  | cons q rest ih =>
    have hqrest : ∀ p ∈ rest, q.2.email ≠ p.2.email :=
      (List.pairwise_cons.mp huniq).1
    have huniq2 : EmailsUnique rest := (List.pairwise_cons.mp huniq).2
    rw [show q = (q.1, q.2) from rfl, insertA]
    by_cases hk : q.1 = id
    · rw [if_pos hk]
      refine List.pairwise_cons.mpr ⟨?_, huniq2⟩
      intro p hp
      exact fun hh => hfresh p (List.mem_cons_of_mem _ hp) hh.symm
    · rw [if_neg hk]
      refine List.pairwise_cons.mpr
        ⟨?_, ih huniq2 (fun p hp => hfresh p (List.mem_cons_of_mem _ hp))⟩
      intro p hp
      rcases mem_insertA hp with h | h
      · exact hqrest p h
      · rw [h]
        exact hfresh (q.1, q.2) (List.mem_cons_self _ _)

/-- C1: a `Create` with an email already held by a live record (emails of
live records being non-empty, as the data model requires) and a non-empty
name fails with the email-exists error and returns the store unchanged; and
`Create` preserves the at-most-one-live-record-per-email invariant from any
store satisfying it. -/
theorem c1_duplicate_email_create (s : Store) (now : Int) (e n : String)
    (hn : n ≠ "") (hvalid : ∀ p ∈ s, p.2.email ≠ "")
    (hheld : ∃ p ∈ s, p.2.email = e) :
    createUser s now e n = (.error .emailAlreadyExists, s) ∧
    ∀ (t : Store) (now2 : Int) (e2 n2 : String),
      EmailsUnique t → EmailsUnique (createUser t now2 e2 n2).2 := by
  constructor
  · obtain ⟨p, hp, hpe⟩ := hheld
    have he : e ≠ "" := hpe ▸ hvalid p hp
    have hany : s.any (fun p => p.2.email == e) = true :=
      List.any_eq_true.mpr ⟨p, hp, beq_iff_eq.mpr hpe⟩
    rw [createUser, if_neg he, if_neg hn, if_pos hany]
  · intro t now2 e2 n2 huniq
    rw [createUser]
    by_cases he2 : e2 = ""
    · rw [if_pos he2]; exact huniq
    rw [if_neg he2]
    by_cases hn2 : n2 = ""
    · rw [if_pos hn2]; exact huniq
    rw [if_neg hn2]
    by_cases hany : t.any (fun p => p.2.email == e2) = true
    · rw [if_pos hany]; exact huniq
    · rw [if_neg hany]
      refine emailsUnique_insertA huniq ?_
      intro p hp hpe
      exact hany (List.any_eq_true.mpr ⟨p, hp, beq_iff_eq.mpr hpe⟩)

/-- C1 witness: the seeded store already holds `john.doe@example.com`, so
creating `Bob` with that email fails and leaves the store as it was. -/
theorem c1_witness :
    (("Bob" : String) ≠ "" ∧ (∀ p ∈ newUserService 0, p.2.email ≠ "") ∧
      ∃ p ∈ newUserService 0, p.2.email = "john.doe@example.com") ∧
    (createUser (newUserService 0) 7 "john.doe@example.com" "Bob" =
        (.error .emailAlreadyExists, newUserService 0) ∧
      ∀ (t : Store) (now2 : Int) (e2 n2 : String),
        EmailsUnique t → EmailsUnique (createUser t now2 e2 n2).2) :=
  ⟨⟨by decide, by decide, by decide⟩,
    c1_duplicate_email_create (newUserService 0) 7 "john.doe@example.com"
      "Bob" (by decide) (by decide) (by decide)⟩

/-- C2 (code bug, evaluated): updating `usr_001` of the seeded store with
both a new name and an email owned by `usr_002` fails with the email-exists
error, yet the stored record keeps the new name `"Bob"`: the in-place name
write of `UpdateUser` happens before the email uniqueness scan, so the
failed call did not leave the record untouched. -/
theorem c2_failed_update_mutates_name :
    (updateUser (newUserService 0) "usr_001"
        [("name", .str "Bob"), ("email", .str "jane.smith@example.com")]).1 =
      .error .emailAlreadyExists ∧
    lookupA (updateUser (newUserService 0) "usr_001"
        [("name", .str "Bob"),
          ("email", .str "jane.smith@example.com")]).2 "usr_001" =
      some { id := "usr_001", email := "john.doe@example.com", name := "Bob",
             role := "admin", created_at := -86400 } := by decide

/-- The store after creating a third user in the seeded store, in the
id-collision scenario of C3. -/
def c3afterCreate : Store := (createUser (newUserService 0) 10 "a@x.com" "A").2

/-- The store of the C3 scenario after deleting `usr_001`: two live records
remain, `usr_002` and `usr_003`. -/
def c3afterDelete : Store := (deleteUser c3afterCreate "usr_001").2

/-- C3 (code bug, evaluated): after a create and a delete, the store holds
two records including `usr_003`; the next successful `Create` derives its id
from the map size and again produces `usr_003`, the id of a live record,
overwriting that record: the store size does not grow. -/
theorem c3_id_collision_overwrites :
    lookupA c3afterDelete "usr_003" =
      some { id := "usr_003", email := "a@x.com", name := "A",
             role := "user", created_at := 10 } ∧
    (createUser c3afterDelete 20 "b@x.com" "B").1 =
      .ok { id := "usr_003", email := "b@x.com", name := "B",
            role := "user", created_at := 20 } ∧
    c3afterDelete.length = 2 ∧
    (createUser c3afterDelete 20 "b@x.com" "B").2.length = 2 ∧
    lookupA (createUser c3afterDelete 20 "b@x.com" "B").2 "usr_003" =
      some { id := "usr_003", email := "b@x.com", name := "B",
             role := "user", created_at := 20 } := by decide

/-- C6: the empty id is rejected with the invalid-id error by `GetUserByID`,
`UpdateUser` and `DeleteUser`, before any record is read, and the store is
returned unchanged; the invalid-id error is distinct from the not-found
error. -/
theorem c6_invalid_id_short_circuit (s : Store) (updates : Updates) :
    getUserByID s "" = .error .invalidUserID ∧
    updateUser s "" updates = (.error .invalidUserID, s) ∧
    deleteUser s "" = (.error .invalidUserID, s) ∧
    UserError.invalidUserID ≠ UserError.userNotFound := by
  refine ⟨?_, ?_, ?_, by decide⟩ <;>
    simp [getUserByID, updateUser, deleteUser]

/-- C8 counterexample: updating the role of a seeded record to `"superuser"`
succeeds and stores that role, which is outside the enumerated set
`{user, admin, moderator}`. -/
theorem c8_counterexample_role_unvalidated :
    (updateUser (newUserService 0) "usr_001"
        [("role", .str "superuser")]).1 =
      .ok { id := "usr_001", email := "john.doe@example.com",
            name := "John Doe", role := "superuser", created_at := -86400 } ∧
    lookupA (updateUser (newUserService 0) "usr_001"
        [("role", .str "superuser")]).2 "usr_001" =
      some { id := "usr_001", email := "john.doe@example.com",
             name := "John Doe", role := "superuser",
             created_at := -86400 } ∧
    ¬("superuser" = "user" ∨ "superuser" = "admin" ∨
        "superuser" = "moderator") := by decide

/-- C9 counterexample: the store built by `NewUserService` is not empty;
`GetAllUsers` returns the two seeded records. -/
theorem c9_counterexample_seeded_store :
    getAllUsers (newUserService 0) ≠ [] ∧
    (getAllUsers (newUserService 0)).length = 2 := by decide

@[simp] theorem applyName_id (u : User) (upd : Updates) :
    (applyName u upd).id = u.id := by
  rw [applyName]
  split
  · split <;> rfl
  · rfl

@[simp] theorem applyName_email (u : User) (upd : Updates) :
    (applyName u upd).email = u.email := by
  rw [applyName]
  split
  · split <;> rfl
  · rfl

@[simp] theorem applyName_role (u : User) (upd : Updates) :
    (applyName u upd).role = u.role := by
  rw [applyName]
  split
  · split <;> rfl
  · rfl

@[simp] theorem applyName_created_at (u : User) (upd : Updates) :
    (applyName u upd).created_at = u.created_at := by
  rw [applyName]
  split
  · split <;> rfl
  · rfl

@[simp] theorem applyRole_id (u : User) (upd : Updates) :
    (applyRole u upd).id = u.id := by
  rw [applyRole]
  split
  · split <;> rfl
  · rfl

@[simp] theorem applyRole_email (u : User) (upd : Updates) :
    (applyRole u upd).email = u.email := by
  rw [applyRole]
  split
  · split <;> rfl
  · rfl

@[simp] theorem applyRole_name (u : User) (upd : Updates) :
    (applyRole u upd).name = u.name := by
  rw [applyRole]
  split
  · split <;> rfl
  · rfl

@[simp] theorem applyRole_created_at (u : User) (upd : Updates) :
    (applyRole u upd).created_at = u.created_at := by
  rw [applyRole]
  split
  · split <;> rfl
  · rfl

/-- The role step only depends on the stored role through the fallback case,
so it commutes with any change to the other fields. -/
theorem applyRole_role_eq (u v : User) (upd : Updates) (h : u.role = v.role) :
    (applyRole u upd).role = (applyRole v upd).role := by
  rw [applyRole, applyRole]
  split
  · split <;> simp [h]
  · simp [h]

/-- Shape of every successful `UpdateUser`: the returned record keeps the id
and creation time of the stored record, its name is the name step applied to
the stored record, its role is the role step applied to the stored record,
and it is exactly what is stored under `id` afterwards. -/
theorem updateUser_ok_fields (s : Store) (id : String) (upd : Updates)
    (u0 w : User) (hid : id ≠ "") (hu0 : lookupA s id = some u0)
    (h : (updateUser s id upd).1 = .ok w) :
    w.id = u0.id ∧ w.created_at = u0.created_at ∧
    w.name = (applyName u0 upd).name ∧
    w.role = (applyRole u0 upd).role ∧
    lookupA (updateUser s id upd).2 id = some w := by
  rcases hemail : lookupA upd "email" with _ | v
  · simp only [updateUser, if_neg hid, hu0, hemail] at h ⊢
    injection h with hw
    subst hw
    exact ⟨by simp, by simp, by simp,
        applyRole_role_eq _ _ _ (by simp), lookupA_insertA_self _ _ _⟩
  · cases v with
    | str e =>
      by_cases he : e = ""
      · simp only [updateUser, if_neg hid, hu0, hemail, if_pos he] at h ⊢
        injection h with hw
        subst hw
        exact ⟨by simp, by simp, by simp,
        applyRole_role_eq _ _ _ (by simp), lookupA_insertA_self _ _ _⟩
      · by_cases hc :
            emailConflict (insertA s id (applyName u0 upd)) id e = true
        · simp only [updateUser, if_neg hid, hu0, hemail, if_neg he, hc,
            if_true] at h
          simp at h
        · simp only [updateUser, if_neg hid, hu0, hemail, if_neg he, hc,
            if_false] at h ⊢
          injection h with hw
          subst hw
          exact ⟨by simp, by simp, by simp,
            applyRole_role_eq _ _ _ (by simp), lookupA_insertA_self _ _ _⟩
    | num k =>
      simp only [updateUser, if_neg hid, hu0, hemail] at h ⊢
      injection h with hw
      subst hw
      exact ⟨by simp, by simp, by simp,
        applyRole_role_eq _ _ _ (by simp), lookupA_insertA_self _ _ _⟩
    | null =>
      simp only [updateUser, if_neg hid, hu0, hemail] at h ⊢
      injection h with hw
      subst hw
      exact ⟨by simp, by simp, by simp,
        applyRole_role_eq _ _ _ (by simp), lookupA_insertA_self _ _ _⟩

/-- When the `updates` map binds `"email"` to nothing, to a non-string
value, or to the empty string, `UpdateUser` skips the email step entirely
and succeeds with the name and role steps applied. -/
theorem updateUser_email_noop (s : Store) (id : String) (upd : Updates)
    (u0 : User) (hid : id ≠ "") (hu0 : lookupA s id = some u0)
    (hes : ∀ e, lookupA upd "email" = some (.str e) → e = "") :
    (updateUser s id upd).1 = .ok (applyRole (applyName u0 upd) upd) := by
  rcases hemail : lookupA upd "email" with _ | v
  · simp only [updateUser, if_neg hid, hu0, hemail]
  · cases v with
    | str e =>
      have he : e = "" := hes e hemail
      simp only [updateUser, if_neg hid, hu0, hemail, if_pos he]
    | num k => simp only [updateUser, if_neg hid, hu0, hemail]
    | null => simp only [updateUser, if_neg hid, hu0, hemail]

/-- The seeded record `usr_001` of `newUserService 0`, used as a concrete
input in several witnesses. -/
def johnUser : User :=
  { id := "usr_001", email := "john.doe@example.com", name := "John Doe",
    role := "admin", created_at := -86400 }

/-- C5: `Update(id, {})` succeeds and returns (and keeps) the record with no
field modified; every successful update preserves the id and creation time;
and a field bound to nothing or to the empty string is treated as no
change. -/
theorem c5_update_sparse_semantics (s : Store) (id : String) (u : User)
    (hid : id ≠ "") (hu : lookupA s id = some u) :
    updateUser s id [] = (.ok u, s) ∧
    (∀ (upd : Updates) (w : User), (updateUser s id upd).1 = .ok w →
      w.id = u.id ∧ w.created_at = u.created_at) ∧
    (∀ (upd : Updates) (w : User), (updateUser s id upd).1 = .ok w →
      ((lookupA upd "name" = none ∨ lookupA upd "name" = some (.str "")) →
        w.name = u.name) ∧
      ((lookupA upd "email" = none ∨ lookupA upd "email" = some (.str "")) →
        w.email = u.email) ∧
      ((lookupA upd "role" = none ∨ lookupA upd "role" = some (.str "")) →
        w.role = u.role)) := by
  refine ⟨?_, ?_, ?_⟩
  · have hn : applyName u ([] : Updates) = u := rfl
    have hr : applyRole u ([] : Updates) = u := rfl
    simp only [updateUser, if_neg hid, hu, lookupA, hn, hr, insertA_self hu]
  · intro upd w h
    obtain ⟨h1, h2, _, _, _⟩ := updateUser_ok_fields s id upd u w hid hu h
    exact ⟨h1, h2⟩
  · intro upd w h
    obtain ⟨_, _, h3, h4, _⟩ := updateUser_ok_fields s id upd u w hid hu h
    refine ⟨?_, ?_, ?_⟩
    · intro hname
      rw [h3]
      rcases hname with hh | hh <;> simp [applyName, hh]
    · intro hemail
      have hes : ∀ e2, lookupA upd "email" = some (.str e2) → e2 = "" := by
        intro e2 he2
        rcases hemail with hh | hh
        · rw [hh] at he2; exact Option.noConfusion he2
        · rw [hh] at he2
          injection he2 with he3
          injection he3 with he4
          exact he4.symm
      have hok := updateUser_email_noop s id upd u hid hu hes
      have hw : w = applyRole (applyName u upd) upd := by
        have h5 := h.symm.trans hok
        injection h5
      rw [hw]
      simp
    · intro hrole
      rw [h4]
      rcases hrole with hh | hh <;> simp [applyRole, hh]

/-- C5 witness: the seeded record `usr_001` with the empty update map. -/
theorem c5_witness :
    (("usr_001" : String) ≠ "" ∧
      lookupA (newUserService 0) "usr_001" = some johnUser) ∧
    (updateUser (newUserService 0) "usr_001" [] =
        (.ok johnUser, newUserService 0) ∧
      (∀ (upd : Updates) (w : User),
        (updateUser (newUserService 0) "usr_001" upd).1 = .ok w →
        w.id = johnUser.id ∧ w.created_at = johnUser.created_at) ∧
      (∀ (upd : Updates) (w : User),
        (updateUser (newUserService 0) "usr_001" upd).1 = .ok w →
        ((lookupA upd "name" = none ∨ lookupA upd "name" = some (.str "")) →
          w.name = johnUser.name) ∧
        ((lookupA upd "email" = none ∨
            lookupA upd "email" = some (.str "")) →
          w.email = johnUser.email) ∧
        ((lookupA upd "role" = none ∨ lookupA upd "role" = some (.str "")) →
          w.role = johnUser.role))) :=
  ⟨⟨by decide, by decide⟩,
    c5_update_sparse_semantics (newUserService 0) "usr_001" johnUser
      (by decide) (by decide)⟩

/-- C10: a value of the updates map that is not a string is skipped by the
type assertion and treated exactly like an absent field: a non-string name
or role leaves that field unchanged in any successful update, and a
non-string email cannot cause an email error and leaves the email
unchanged. -/
theorem c10_nonstring_update_values (s : Store) (id : String) (u : User)
    (upd : Updates) (hid : id ≠ "") (hu : lookupA s id = some u) :
    (∀ v, lookupA upd "name" = some v → isStr v = false →
      ∀ w, (updateUser s id upd).1 = .ok w → w.name = u.name) ∧
    (∀ v, lookupA upd "email" = some v → isStr v = false →
      ∃ w, (updateUser s id upd).1 = .ok w ∧ w.email = u.email) ∧
    (∀ v, lookupA upd "role" = some v → isStr v = false →
      ∀ w, (updateUser s id upd).1 = .ok w → w.role = u.role) := by
  refine ⟨?_, ?_, ?_⟩
  · intro v hv hns w h
    obtain ⟨_, _, h3, _, _⟩ := updateUser_ok_fields s id upd u w hid hu h
    rw [h3]
    cases v with
    | str s2 => simp [isStr] at hns
    | num k => simp [applyName, hv]
    | null => simp [applyName, hv]
  · intro v hv hns
    have hes : ∀ e2, lookupA upd "email" = some (.str e2) → e2 = "" := by
      intro e2 he2
      rw [hv] at he2
      injection he2 with he3
      rw [he3] at hns
      simp [isStr] at hns
    exact ⟨applyRole (applyName u upd) upd,
      updateUser_email_noop s id upd u hid hu hes, by simp⟩
  · intro v hv hns w h
    obtain ⟨_, _, _, h4, _⟩ := updateUser_ok_fields s id upd u w hid hu h
    rw [h4]
    cases v with
    | str s2 => simp [isStr] at hns
    | num k => simp [applyRole, hv]
    | null => simp [applyRole, hv]

/-- C10 witness: all three fields bound to non-string values on the seeded
record `usr_001`. -/
theorem c10_witness :
    (("usr_001" : String) ≠ "" ∧
      lookupA (newUserService 0) "usr_001" = some johnUser) ∧
    ((∀ v, lookupA ([("name", GoValue.num 1), ("email", GoValue.null),
          ("role", GoValue.num 2)] : Updates) "name" = some v →
        isStr v = false →
        ∀ w, (updateUser (newUserService 0) "usr_001"
            [("name", GoValue.num 1), ("email", GoValue.null),
              ("role", GoValue.num 2)]).1 = .ok w →
          w.name = johnUser.name) ∧
      (∀ v, lookupA ([("name", GoValue.num 1), ("email", GoValue.null),
          ("role", GoValue.num 2)] : Updates) "email" = some v →
        isStr v = false →
        ∃ w, (updateUser (newUserService 0) "usr_001"
            [("name", GoValue.num 1), ("email", GoValue.null),
              ("role", GoValue.num 2)]).1 = .ok w ∧
          w.email = johnUser.email) ∧
      (∀ v, lookupA ([("name", GoValue.num 1), ("email", GoValue.null),
          ("role", GoValue.num 2)] : Updates) "role" = some v →
        isStr v = false →
        ∀ w, (updateUser (newUserService 0) "usr_001"
            [("name", GoValue.num 1), ("email", GoValue.null),
              ("role", GoValue.num 2)]).1 = .ok w →
          w.role = johnUser.role)) :=
  ⟨⟨by decide, by decide⟩,
    c10_nonstring_update_values (newUserService 0) "usr_001" johnUser
      [("name", GoValue.num 1), ("email", GoValue.null),
        ("role", GoValue.num 2)] (by decide) (by decide)⟩

/-- C7: when `Create` succeeds, looking the returned id up in the resulting
store succeeds and yields the very record that was returned, with the given
email and name, the default role, and a creation time no earlier than the
call time. -/
theorem c7_create_roundtrip (s : Store) (now : Int) (e n : String)
    (u : User) (s2 : Store) (h : createUser s now e n = (.ok u, s2)) :
    getUserByID s2 u.id = .ok u ∧ u.email = e ∧ u.name = n ∧
    u.role = "user" ∧ now ≤ u.created_at := by
  simp only [createUser] at h
  by_cases he : e = ""
  · rw [if_pos he] at h
    exact absurd h (by simp)
  rw [if_neg he] at h
  by_cases hn : n = ""
  · rw [if_pos hn] at h
    exact absurd h (by simp)
  rw [if_neg hn] at h
  by_cases hany : s.any (fun p => p.2.email == e) = true
  · rw [if_pos hany] at h
    exact absurd h (by simp)
  rw [if_neg hany] at h
  rw [Prod.mk.injEq] at h
  obtain ⟨h1, h2⟩ := h
  injection h1 with h1
  subst h1
  subst h2
  refine ⟨?_, rfl, rfl, rfl, le_refl _⟩
  simp [getUserByID, genID_ne_empty, lookupA_insertA_self]

/-- The record created by the C7 witness call. -/
def c7createdUser : User :=
  { id := "usr_003", email := "x@y.z", name := "X", role := "user",
    created_at := 5 }

/-- The store of the C7 witness call after the create. -/
def c7storeAfter : Store := insertA (newUserService 0) "usr_003" c7createdUser

/-- C7 witness: creating `X` in the seeded store and reading it back. -/
theorem c7_witness :
    createUser (newUserService 0) 5 "x@y.z" "X" = (.ok c7createdUser, c7storeAfter) ∧
    (getUserByID c7storeAfter c7createdUser.id = .ok c7createdUser ∧
      c7createdUser.email = "x@y.z" ∧ c7createdUser.name = "X" ∧
      c7createdUser.role = "user" ∧ (5 : Int) ≤ c7createdUser.created_at) :=
  ⟨by decide,
    c7_create_roundtrip (newUserService 0) 5 "x@y.z" "X" c7createdUser
      c7storeAfter (by decide)⟩

/-- C8 (amended): every record created through `Create` carries the default
role `"user"` and is stored as returned, but `Update` performs no validation
of the role against the enumerated set: it stores any non-empty string
offered as the role, so reachable stores can hold roles outside
`{user, admin, moderator}`. -/
theorem c8_amended_roles (s : Store) (now : Int) (e n : String) (u : User)
    (s2 : Store) (h : createUser s now e n = (.ok u, s2)) :
    u.role = "user" ∧ lookupA s2 u.id = some u ∧
    ∀ (t : Store) (id r : String) (u0 : User), id ≠ "" →
      lookupA t id = some u0 → r ≠ "" →
      (updateUser t id [("role", .str r)]).1 = .ok { u0 with role := r } := by
  simp only [createUser] at h
  by_cases he : e = ""
  · rw [if_pos he] at h
    exact absurd h (by simp)
  rw [if_neg he] at h
  by_cases hn : n = ""
  · rw [if_pos hn] at h
    exact absurd h (by simp)
  rw [if_neg hn] at h
  by_cases hany : s.any (fun p => p.2.email == e) = true
  · rw [if_pos hany] at h
    exact absurd h (by simp)
  rw [if_neg hany] at h
  rw [Prod.mk.injEq] at h
  obtain ⟨h1, h2⟩ := h
  injection h1 with h1
  subst h1
  subst h2
  refine ⟨rfl, lookupA_insertA_self _ _ _, ?_⟩
  intro t id r u0 hid hu0 hr
  simp [updateUser, if_neg hid, hu0, applyName, applyRole, lookupA,
    if_neg hr]

/-- The record created by the C8 witness call. -/
def c8createdUser : User :=
  { id := "usr_003", email := "c@x.com", name := "C", role := "user",
    created_at := 3 }

/-- The store of the C8 witness call after the create. -/
def c8storeAfter : Store := insertA (newUserService 0) "usr_003" c8createdUser

/-- C8 witness: a concrete create carrying the default role. -/
theorem c8_witness :
    createUser (newUserService 0) 3 "c@x.com" "C" = (.ok c8createdUser, c8storeAfter) ∧
    (c8createdUser.role = "user" ∧
      lookupA c8storeAfter c8createdUser.id = some c8createdUser ∧
      ∀ (t : Store) (id r : String) (u0 : User), id ≠ "" →
        lookupA t id = some u0 → r ≠ "" →
        (updateUser t id [("role", .str r)]).1 =
          .ok { u0 with role := r }) :=
  ⟨by decide,
    c8_amended_roles (newUserService 0) 3 "c@x.com" "C" c8createdUser
      c8storeAfter (by decide)⟩

/-- C9 (amended): a newly constructed store is not empty but holds exactly
the two seeded test records, and the first successful `Create` brings the
store size to three. -/
theorem c9_amended_seeded_sizes (now now2 : Int) (e n : String) (u : User)
    (s2 : Store)
    (h : createUser (newUserService now) now2 e n = (.ok u, s2)) :
    (getAllUsers (newUserService now)).length = 2 ∧ s2.length = 3 := by
  refine ⟨rfl, ?_⟩
  simp only [createUser] at h
  by_cases he : e = ""
  · rw [if_pos he] at h
    exact absurd h (by simp)
  rw [if_neg he] at h
  by_cases hn : n = ""
  · rw [if_pos hn] at h
    exact absurd h (by simp)
  rw [if_neg hn] at h
  by_cases hany : (newUserService now).any (fun p => p.2.email == e) = true
  · rw [if_pos hany] at h
    exact absurd h (by simp)
  rw [if_neg hany] at h
  rw [Prod.mk.injEq] at h
  obtain ⟨h1, h2⟩ := h
  subst h2
  have hlen : (newUserService now).length = 2 := rfl
  rw [hlen]
  have hg : genID (2 + 1) = "usr_003" := by decide
  rw [hg]
  rfl

/-- C9 witness: the first create on a freshly seeded store. -/
theorem c9_witness :
    createUser (newUserService 0) 5 "x@y.z" "X" =
      (.ok c7createdUser, c7storeAfter) ∧
    ((getAllUsers (newUserService 0)).length = 2 ∧ c7storeAfter.length = 3) :=
  ⟨by decide,
    c9_amended_seeded_sizes 0 5 "x@y.z" "X" c7createdUser c7storeAfter
      (by decide)⟩

namespace Ptr

/-- Pointer-level state of `userService`: a heap of `User` cells addressed
by naturals, a bump allocator, and the `users` map from ids to addresses
(the Go `map[string]*User`). -/
structure PState where
  nextAddr : Nat
  heap : Nat → User
  users : List (String × Nat)

/-- Allocation of a fresh cell holding `u`, modelling `&User{...}` and the
escaping `userCopy := *user; return &userCopy` pattern. -/
def palloc (st : PState) (u : User) : Nat × PState :=
  (st.nextAddr,
   { nextAddr := st.nextAddr + 1,
     heap := fun a => if a = st.nextAddr then u else st.heap a,
     users := st.users })

/-- A store through a pointer, modelling `user.Field = v` or any caller-side
mutation of a record it holds a pointer to. -/
def heapWrite (st : PState) (p : Nat) (u : User) : PState :=
  { st with heap := fun a => if a = p then u else st.heap a }

/-- The record value currently stored for `id`: what a subsequent
`GetUserByID` would return a copy of. -/
def storedUser (st : PState) (id : String) : Option User :=
  (lookupA st.users id).map st.heap

/-- Well-formedness: every address held by the map was allocated. -/
abbrev WF (st : PState) : Prop := ∀ pr ∈ st.users, pr.2 < st.nextAddr

/-- `GetUserByID`, pointer level: on success a fresh cell holding a copy of
the stored record is allocated and its address returned. -/
def getUserByID (st : PState) (id : String) :
    Except UserError Nat × PState :=
  if id = "" then (.error .invalidUserID, st)
  else
    match lookupA st.users id with
    | some p => (.ok (palloc st (st.heap p)).1, (palloc st (st.heap p)).2)
    | none => (.error .userNotFound, st)

/-- The copy loop of `GetAllUsers`: each `users = append(users, *user)`
step places a copy of the record in a fresh cell of the result storage. -/
def copyAll : List (String × Nat) → PState → List Nat × PState
  | [], st => ([], st)
  | pr :: rest, st =>
    (st.nextAddr :: (copyAll rest (palloc st (st.heap pr.2)).2).1,
     (copyAll rest (palloc st (st.heap pr.2)).2).2)

/-- `GetAllUsers`, pointer level. -/
def getAllUsers (st : PState) : List Nat × PState := copyAll st.users st

/-- `CreateUser`, pointer level: after validation and the email scan, a cell
for the stored record is allocated and put in the map, then a second cell
with the returned copy. -/
def createUser (st : PState) (now : Int) (email name : String) :
    Except UserError Nat × PState :=
  if email = "" then (.error .invalidEmail, st)
  else if name = "" then (.error .nameRequired, st)
  else if st.users.any (fun pr => (st.heap pr.2).email == email) then
    (.error .emailAlreadyExists, st)
  else
    let id := genID (st.users.length + 1)
    let u : User :=
      { id := id, email := email, name := name, role := "user",
        created_at := now }
    let st2 :=
      { (palloc st u).2 with
        users := insertA (palloc st u).2.users id (palloc st u).1 }
    (.ok (palloc st2 u).1, (palloc st2 u).2)

/-- The in-place name write of `UpdateUser`. -/
def nameStep (st : PState) (p : Nat) (updates : Updates) : PState :=
  match lookupA updates "name" with
  | some (.str n) =>
      if n = "" then st else heapWrite st p { st.heap p with name := n }
  | _ => st

/-- The in-place role write of `UpdateUser`. -/
def roleStep (st : PState) (p : Nat) (updates : Updates) : PState :=
  match lookupA updates "role" with
  | some (.str r) =>
      if r = "" then st else heapWrite st p { st.heap p with role := r }
  | _ => st

/-- `UpdateUser`, pointer level: the three field steps mutate the stored
cell in place (the name step before the email scan, which is the partial
update observable on a failing call); on success a fresh cell with the
returned copy is allocated. -/
def updateUser (st : PState) (id : String) (updates : Updates) :
    Except UserError Nat × PState :=
  if id = "" then (.error .invalidUserID, st)
  else
    match lookupA st.users id with
    | none => (.error .userNotFound, st)
    | some p =>
      let st1 := nameStep st p updates
      match lookupA updates "email" with
      | some (.str e) =>
        if e = "" then
          let st2 := roleStep st1 p updates
          (.ok (palloc st2 (st2.heap p)).1, (palloc st2 (st2.heap p)).2)
        else if st1.users.any
            (fun pr => (pr.1 != id) && ((st1.heap pr.2).email == e)) then
          (.error .emailAlreadyExists, st1)
        else
          let st2 := heapWrite st1 p { st1.heap p with email := e }
          let st3 := roleStep st2 p updates
          (.ok (palloc st3 (st3.heap p)).1, (palloc st3 (st3.heap p)).2)
      | _ =>
        let st2 := roleStep st1 p updates
        (.ok (palloc st2 (st2.heap p)).1, (palloc st2 (st2.heap p)).2)

@[simp] theorem users_palloc (st : PState) (u : User) :
    (palloc st u).2.users = st.users := rfl

@[simp] theorem nextAddr_palloc (st : PState) (u : User) :
    (palloc st u).2.nextAddr = st.nextAddr + 1 := rfl

@[simp] theorem fst_palloc (st : PState) (u : User) :
    (palloc st u).1 = st.nextAddr := rfl

@[simp] theorem users_heapWrite (st : PState) (p : Nat) (u : User) :
    (heapWrite st p u).users = st.users := rfl

@[simp] theorem nextAddr_heapWrite (st : PState) (p : Nat) (u : User) :
    (heapWrite st p u).nextAddr = st.nextAddr := rfl

@[simp] theorem users_nameStep (st : PState) (p : Nat) (upd : Updates) :
    (nameStep st p upd).users = st.users := by
  rw [nameStep]
  split
  · split <;> rfl
  · rfl

@[simp] theorem nextAddr_nameStep (st : PState) (p : Nat) (upd : Updates) :
    (nameStep st p upd).nextAddr = st.nextAddr := by
  rw [nameStep]
  split
  · split <;> rfl
  · rfl

@[simp] theorem users_roleStep (st : PState) (p : Nat) (upd : Updates) :
    (roleStep st p upd).users = st.users := by
  rw [roleStep]
  split
  · split <;> rfl
  · rfl

@[simp] theorem nextAddr_roleStep (st : PState) (p : Nat) (upd : Updates) :
    (roleStep st p upd).nextAddr = st.nextAddr := by
  rw [roleStep]
  split
  · split <;> rfl
  · rfl

/-- Frame rule: writing through an address held by no map entry does not
change any stored record. -/
theorem storedUser_heapWrite_fresh {st : PState} {q : Nat}
    (hq : ∀ pr ∈ st.users, pr.2 ≠ q) (v : User) (id : String) :
    storedUser (heapWrite st q v) id = storedUser st id := by
  simp only [storedUser, users_heapWrite]
  rcases hl : lookupA st.users id with _ | p
  · rfl
  · have hmem : (id, p) ∈ st.users := lookupA_mem hl
    have hne : p ≠ q := hq (id, p) hmem
    simp only [Option.map_some', heapWrite]
    rw [if_neg hne]

theorem getUserByID_ok {st : PState} {id : String} {q : Nat} {st2 : PState}
    (h : getUserByID st id = (.ok q, st2)) :
    q = st.nextAddr ∧ st2.users = st.users ∧
    storedUser st id = some (st2.heap q) := by
  by_cases hid : id = ""
  · simp [getUserByID, hid] at h
  rcases hl : lookupA st.users id with _ | p
  · simp [getUserByID, hid, hl] at h
  · simp only [getUserByID, if_neg hid, hl] at h
    rw [Prod.mk.injEq] at h
    obtain ⟨h1, h2⟩ := h
    injection h1 with h1
    subst h1
    subst h2
    refine ⟨rfl, rfl, ?_⟩
    simp [storedUser, hl, palloc]

theorem createUser_ok {st : PState} {now : Int} {email name : String}
    {q : Nat} {st2 : PState}
    (h : createUser st now email name = (.ok q, st2)) :
    q = st.nextAddr + 1 ∧
    st2.users = insertA st.users (genID (st.users.length + 1)) st.nextAddr := by
  by_cases he : email = ""
  · simp [createUser, he] at h
  by_cases hn : name = ""
  · simp [createUser, he, hn] at h
  by_cases hany :
      st.users.any (fun pr => (st.heap pr.2).email == email) = true
  · simp [createUser, he, hn, hany] at h
  · simp only [createUser, if_neg he, if_neg hn, if_neg hany] at h
    rw [Prod.mk.injEq] at h
    obtain ⟨h1, h2⟩ := h
    injection h1 with h1
    subst h1
    subst h2
    exact ⟨rfl, rfl⟩

theorem updateUser_ok_frame {st : PState} {id : String} {upd : Updates}
    {q : Nat} {st2 : PState} (h : updateUser st id upd = (.ok q, st2)) :
    q = st.nextAddr ∧ st2.users = st.users := by
  by_cases hid : id = ""
  · simp [updateUser, hid] at h
  rcases hl : lookupA st.users id with _ | p
  · simp [updateUser, hid, hl] at h
  rcases hemail : lookupA upd "email" with _ | v
  · simp only [updateUser, if_neg hid, hl, hemail] at h
    rw [Prod.mk.injEq] at h
    obtain ⟨h1, h2⟩ := h
    injection h1 with h1
    subst h1
    subst h2
    constructor <;> simp
  · cases v with
    | str e =>
      by_cases he : e = ""
      · simp only [updateUser, if_neg hid, hl, hemail, if_pos he] at h
        rw [Prod.mk.injEq] at h
        obtain ⟨h1, h2⟩ := h
        injection h1 with h1
        subst h1
        subst h2
        constructor <;> simp
      · by_cases hc : (nameStep st p upd).users.any
            (fun pr => (pr.1 != id) &&
              (((nameStep st p upd).heap pr.2).email == e)) = true
        · simp only [updateUser, if_neg hid, hl, hemail, if_neg he, hc,
            if_true] at h
          simp at h
        · simp only [updateUser, if_neg hid, hl, hemail, if_neg he, hc,
            if_false] at h
          rw [Prod.mk.injEq] at h
          obtain ⟨h1, h2⟩ := h
          injection h1 with h1
          subst h1
          subst h2
          constructor <;> simp
    | num k =>
      simp only [updateUser, if_neg hid, hl, hemail] at h
      rw [Prod.mk.injEq] at h
      obtain ⟨h1, h2⟩ := h
      injection h1 with h1
      subst h1
      subst h2
      constructor <;> simp
    | null =>
      simp only [updateUser, if_neg hid, hl, hemail] at h
      rw [Prod.mk.injEq] at h
      obtain ⟨h1, h2⟩ := h
      injection h1 with h1
      subst h1
      subst h2
      constructor <;> simp

theorem copyAll_spec (l : List (String × Nat)) (st : PState) :
    (copyAll l st).2.users = st.users ∧
    st.nextAddr ≤ (copyAll l st).2.nextAddr ∧
    ∀ q ∈ (copyAll l st).1, st.nextAddr ≤ q := by
  induction l generalizing st with
  | nil => simp [copyAll]
  | cons pr rest ih =>
    obtain ⟨ih1, ih2, ih3⟩ := ih (palloc st (st.heap pr.2)).2
    refine ⟨?_, ?_, ?_⟩
    · simp only [copyAll]
      rw [ih1, users_palloc]
    · simp only [copyAll]
      exact le_trans (Nat.le_succ _) ih2
    · simp only [copyAll]
      intro q hq
      rcases List.mem_cons.mp hq with h | h
      · subst h
        exact le_refl _
      · exact le_trans (Nat.le_succ _) (ih3 q h)

/-- Copy isolation of the four record-returning operations: every address a
caller gets back is outside the map, so any mutation written through it
leaves every stored record (and hence every later `GetUserByID` result)
unchanged; moreover the cell returned by `GetUserByID` holds exactly the
stored record. -/
def IsolationSpec (st : PState) : Prop :=
  (∀ (id : String) (q : Nat) (st2 : PState),
    getUserByID st id = (.ok q, st2) →
    storedUser st id = some (st2.heap q) ∧
    ∀ (v : User) (id2 : String),
      storedUser (heapWrite st2 q v) id2 = storedUser st2 id2) ∧
  (∀ q ∈ (getAllUsers st).1, ∀ (v : User) (id2 : String),
    storedUser (heapWrite (getAllUsers st).2 q v) id2 =
      storedUser (getAllUsers st).2 id2) ∧
  (∀ (now : Int) (email name : String) (q : Nat) (st2 : PState),
    createUser st now email name = (.ok q, st2) →
    ∀ (v : User) (id2 : String),
      storedUser (heapWrite st2 q v) id2 = storedUser st2 id2) ∧
  (∀ (id : String) (upd : Updates) (q : Nat) (st2 : PState),
    updateUser st id upd = (.ok q, st2) →
    ∀ (v : User) (id2 : String),
      storedUser (heapWrite st2 q v) id2 = storedUser st2 id2)

/-- C4: in every well-formed state, the records returned by `GetUserByID`,
`GetAllUsers`, `CreateUser` and `UpdateUser` are independent copies of the
stored state: mutating a returned record does not change what a subsequent
`GetUserByID` returns for any id. -/
theorem c4_copy_isolation (st : PState) (hwf : WF st) : IsolationSpec st := by
  refine ⟨?_, ?_, ?_, ?_⟩
  · intro id q st2 h
    obtain ⟨hq, husers, hstored⟩ := getUserByID_ok h
    refine ⟨hstored, ?_⟩
    intro v id2
    apply storedUser_heapWrite_fresh
    intro pr hpr
    rw [husers] at hpr
    have hlt := hwf pr hpr
    omega
  · intro q hq v id2
    obtain ⟨h1, _, h3⟩ := copyAll_spec st.users st
    apply storedUser_heapWrite_fresh
    intro pr hpr
    rw [show (getAllUsers st).2.users = st.users from h1] at hpr
    have hlt := hwf pr hpr
    have hge := h3 q hq
    omega
  · intro now email name q st2 h
    obtain ⟨hq, husers⟩ := createUser_ok h
    apply storedUser_heapWrite_fresh
    intro pr hpr
    rw [husers] at hpr
    rcases mem_insertA hpr with hm | hm
    · have hlt := hwf pr hm
      omega
    · rw [hm]
      simp only
      omega
  · intro id upd q st2 h
    obtain ⟨hq, husers⟩ := updateUser_ok_frame h
    apply storedUser_heapWrite_fresh
    intro pr hpr
    rw [husers] at hpr
    have hlt := hwf pr hpr
    omega

/-- A small concrete well-formed pointer state: one record, one live cell. -/
def exPState : PState :=
  { nextAddr := 1, heap := fun _ => johnUser, users := [("usr_001", 0)] }

/-- C4 witness: the isolation property instantiated at a concrete
well-formed state. -/
theorem c4_witness : WF exPState ∧ IsolationSpec exPState :=
  ⟨by decide, c4_copy_isolation exPState (by decide)⟩

end Ptr
